import Mathlib

/-!
Verification development for the `test_reporter` repository.

The repository's hardest component, a structural and content validator for
package documents, is described in the specification; its definitions here
are modelled from the spec (the validator's code itself is not among the
shipped source files, only the one-shot generation scripts are).  The
generation-script helpers (`create_file`, `calculate_progress`,
`extract_timestamp_from_filename`) are embedded directly from the Python
sources under `scripts/`.
-/

namespace TestReporter

/-! ## Result Model -/

/-- Severity of a single check outcome.  Modelled from the spec:
`severity: {error, warning, info}`. -/
inductive Severity where
  | error
  | warning
  | info
deriving DecidableEq, Repr

/-- Modelled from the spec: the immutable `CheckOutcome` record
(`passed: bool`, `message: string`, `severity`). -/
structure CheckOutcome where
  passed : Bool
  message : String
  severity : Severity
deriving DecidableEq, Repr

/-- Number of error-severity outcomes in a list. -/
def countErrors (os : List CheckOutcome) : Nat :=
  os.countP (fun o => o.severity = Severity.error)

/-- Number of warning-severity outcomes in a list. -/
def countWarnings (os : List CheckOutcome) : Nat :=
  os.countP (fun o => o.severity = Severity.warning)

/-- Modelled from the spec: the aggregate `ValidationReport` with derived
fields `error_count`, `warning_count`, `overall_pass`
(true iff `error_count == 0`). -/
structure ValidationReport where
  outcomes : List CheckOutcome
  error_count : Nat
  warning_count : Nat
  overall_pass : Bool
deriving DecidableEq, Repr

/-- Modelled from the spec: the report is constructed once at the end of a
run from the accumulated outcome list. -/
def mkReport (os : List CheckOutcome) : ValidationReport :=
  { outcomes := os
    error_count := countErrors os
    warning_count := countWarnings os
    overall_pass := countErrors os = 0 }

/-- Modelled from the spec: strict mode maps `warning → error` for
report-level tallying. -/
def promote (o : CheckOutcome) : CheckOutcome :=
  if o.severity = Severity.warning then
    { o with severity := Severity.error }
  else o

/-- Modelled from the spec: strict mode is a pure post-processing step over
the outcome list. -/
def mkReportStrict (os : List CheckOutcome) : ValidationReport :=
  mkReport (os.map promote)

/-! ## Script helpers embedded from `scripts/` -/

/-- A flat model of the filesystem touched by `create_file`: an association
list from paths to file contents (directories, which `create_file` only ever
creates via `mkdir(parents=True, exist_ok=True)`, carry no content and are
not modelled). -/
abbrev FS := List (String × String)

/-- Embedded from `scripts/create_phase5_complete.py`, `create_file`:
creates the parent directories, then writes `content` at `path` only when
no file exists there yet. -/
def create_file (fs : FS) (path content : String) : FS :=
  if (fs.lookup path).isSome then fs else (path, content) :: fs

/-- Embedded from `scripts/check_coverage_progress.py`,
`calculate_progress`: Python float arithmetic is modelled exactly over the
rationals (the function only subtracts, divides by a positive quantity, and
clamps). -/
def calculate_progress (current start target : ℚ) : ℚ :=
  if target ≤ start then 100
  else min 100 (max 0 ((current - start) / (target - start) * 100))

/-- The timestamp value built by `extract_timestamp_from_filename`
(in the source a `datetime(year, month, day, hour, minute)`). -/
structure Timestamp where
  year : Nat
  month : Nat
  day : Nat
  hour : Nat
  minute : Nat
deriving DecidableEq, Repr

/-- Numeric value of a decimal digit list (`int(...)` on the digit
substring). -/
def digitsToNat (ds : List Char) : Nat :=
  ds.foldl (fun acc c => 10 * acc + (c.toNat - '0'.toNat)) 0

/-- One attempt of the regex `@(\d{4})_(\d{6})` anchored at the head of the
character list: an `@`, four digits, an underscore, six digits.  Returns
the two captured digit groups. -/
def matchTimestampAt : List Char → Option (List Char × List Char)
  | '@' :: a :: b :: c :: d :: '_' :: e :: f :: g :: h :: i :: j :: _ =>
    if [a, b, c, d].all Char.isDigit && [e, f, g, h, i, j].all Char.isDigit then
      some ([a, b, c, d], [e, f, g, h, i, j])
    else none
  | _ => none

/-- `re.search` semantics: try the pattern at each position, left to right,
returning the first match's capture groups. -/
def findTimestamp : List Char → Option (List Char × List Char)
  | [] => none
  | c :: rest =>
    match matchTimestampAt (c :: rest) with
    | some m => some m
    | none => findTimestamp rest

/-- Whether some substring of the character list matches
`@(\d{4})_(\d{6})` (the pattern has a fixed shape, so substring matching
and `re.search` coincide). -/
def hasTimestampPattern : List Char → Bool
  | [] => false
  | c :: rest => (matchTimestampAt (c :: rest)).isSome || hasTimestampPattern rest

/-- Embedded from `scripts/check_coverage_progress.py`,
`extract_timestamp_from_filename`: searches the filename for
`@HHMM_DDMMYY`, returning the decoded timestamp of the first match and
`None` when the pattern never occurs. -/
def extract_timestamp_from_filename (filename : String) : Option Timestamp :=
  match findTimestamp filename.toList with
  | none => none
  | some (timeStr, dateStr) =>
    some { year := 2000 + digitsToNat (dateStr.drop 4)
           month := digitsToNat ((dateStr.drop 2).take 2)
           day := digitsToNat (dateStr.take 2)
           hour := digitsToNat (timeStr.take 2)
           minute := digitsToNat (timeStr.drop 2) }

/-! ## Package model -/

/-- One directory entry directly inside the Package root. -/
structure Entry where
  name : String
  isDir : Bool
deriving DecidableEq, Repr

/-- A script file inside the scripts subdirectory: its name, its content,
and whether it parses in the conventional scripting language (the spec
treats the compile/parse attempt as a black box, so its verdict is part of
the package model). -/
structure ScriptFile where
  name : String
  content : String
  parses : Bool
deriving DecidableEq, Repr

/-- A document file inside the references subdirectory. -/
structure RefDoc where
  name : String
  content : String
deriving DecidableEq, Repr

/-- Modelled from the spec: the `Package` under validation, as the
validator observes it through bounded filesystem reads — root existence,
the manifest file (present / absent / present only under a case variant of
the expected name) with its raw content, the entries directly inside the
root, the set of relative file paths that exist (for reference
resolution), and the contents of the two recognized subdirectories. -/
structure Package where
  rootExists : Bool
  rootIsDir : Bool
  directory_name : String
  manifestPresent : Bool
  manifestMiscased : Bool
  manifestContent : String
  entries : List Entry
  files : List String
  scriptsFiles : List ScriptFile
  referencesFiles : List RefDoc
deriving DecidableEq, Repr

/-! ## String primitives

All text manipulation is defined by structural recursion over character
lists, so every definition evaluates on concrete inputs. -/

/-- Whitespace characters removed by trimming. -/
def charIsWs (c : Char) : Bool :=
  c = ' ' || c = '\t' || c = '\n' || c = '\r'

/-- Both-ends whitespace trim over characters. -/
def trimList (cs : List Char) : List Char :=
  ((cs.dropWhile charIsWs).reverse.dropWhile charIsWs).reverse

/-- Whitespace trim of a string. -/
def trimS (s : String) : String :=
  String.mk (trimList s.toList)

/-- Accumulating splitter at newline characters. -/
def splitLinesAux (cur : List Char) : List Char → List (List Char)
  | [] => [cur.reverse]
  | c :: rest =>
    if c = '\n' then cur.reverse :: splitLinesAux [] rest
    else splitLinesAux (c :: cur) rest

/-- The lines of a text, in order; always at least one line. -/
def splitLines (s : String) : List String :=
  (splitLinesAux [] s.toList).map String.mk

/-- Join lines with single newlines. -/
def joinLines : List String → String
  | [] => ""
  | [l] => l
  | l :: rest => l ++ "\n" ++ joinLines rest

/-- Whether `p` is a prefix of `s`. -/
def strStartsWith (s p : String) : Bool :=
  p.toList.isPrefixOf s.toList

/-- Whether `p` is a suffix of `s`. -/
def strEndsWith (s p : String) : Bool :=
  p.toList.isSuffixOf s.toList

/-- ASCII lowercasing of a string. -/
def lowerS (s : String) : String :=
  String.mk (s.toList.map Char.toLower)

/-! ## Document Reader -/

/-- Split a list of lines at the first occurrence of the delimiter line,
returning the lines before it and the lines after it. -/
def splitAtDelim (lines : List String) : Option (List String × List String) :=
  match lines with
  | [] => none
  | l :: rest =>
    if l = "---" then some ([], rest)
    else
      match splitAtDelim rest with
      | some (a, b) => some (l :: a, b)
      | none => none

/-- Modelled from the spec: the Document Reader splits manifest content
into metadata-block text (between the first and second delimiter lines)
and body text (everything after the second delimiter), both trimmed;
it fails when the content does not start with the delimiter or no closing
delimiter follows. -/
def read_manifest (content : String) : Option (String × String) :=
  match splitLines content with
  | [] => none
  | first :: rest =>
    if first = "---" then
      match splitAtDelim rest with
      | some (metaLines, bodyLines) =>
        some (trimS (joinLines metaLines), trimS (joinLines bodyLines))
      | none => none
    else none

/-! ## Metadata Parser and Schema Checker -/

/-- Split a character list at the first occurrence of `target`, returning
the characters before it and the characters after it. -/
def splitAtDelimChar (target : Char) : List Char → Option (List Char × List Char)
  | [] => none
  | c :: rest =>
    if c = target then some ([], rest)
    else
      match splitAtDelimChar target rest with
      | some (a, b) => some (c :: a, b)
      | none => none

/-- Modelled from the spec: metadata-block parsing is a black box
returning a mapping from string keys to values or failing on malformed
input; modelled as a line-based `key: value` reader where any non-blank
line without a colon (a bare scalar, a list item) makes the block fail to
parse as a top-level mapping. -/
def parseMapping (text : String) : Option (List (String × String)) :=
  let lines := (splitLines text).filter (fun l => trimS l ≠ "")
  if lines.any (fun l => ¬ l.toList.contains ':') then none
  else if lines.isEmpty then none
  else
    some (lines.map (fun l =>
      match splitAtDelimChar ':' l.toList with
      | some (k, v) => (trimS (String.mk k), trimS (String.mk v))
      | none => (trimS l, "")))

/-- The fixed allow-list of metadata fields. -/
def allowedFields : List String :=
  ["name", "description", "license", "allowed-tools", "metadata"]

/-- The mandatory metadata fields. -/
def mandatoryFields : List String := ["name", "description"]

/-- A failing error-severity outcome. -/
def errOutcome (msg : String) : CheckOutcome :=
  { passed := false, message := msg, severity := Severity.error }

/-- A failing warning-severity outcome. -/
def warnOutcome (msg : String) : CheckOutcome :=
  { passed := false, message := msg, severity := Severity.warning }

/-- A passing info-severity outcome. -/
def infoOutcome (msg : String) : CheckOutcome :=
  { passed := true, message := msg, severity := Severity.info }

/-- Whether `sub` occurs as a contiguous substring of the character
list. -/
def containsSubAux (sub : List Char) : List Char → Bool
  | [] => sub.isEmpty
  | c :: rest => sub.isPrefixOf (c :: rest) || containsSubAux sub rest

/-- Whether `sub` occurs as a contiguous substring of `s`. -/
def containsSub (sub s : String) : Bool :=
  containsSubAux sub.toList s.toList

/-! ## Field Validators -/

/-- A lowercase-alphanumeric character, the only characters a name segment
may contain. -/
def isLowerAlnumChar (c : Char) : Bool :=
  ('a' ≤ c && c ≤ 'z') || ('0' ≤ c && c ≤ '9')

/-- State-machine recognizer for the name pattern
`^[a-z0-9]+(-[a-z0-9]+)*$`: the flag records whether the current segment
already holds at least one character, so a hyphen is legal only after a
non-empty segment and the string may not end inside an empty segment. -/
def nameFormatAux : List Char → Bool → Bool
  | [], seen => seen
  | c :: rest, seen =>
    if isLowerAlnumChar c then nameFormatAux rest true
    else if c = '-' then seen && nameFormatAux rest false
    else false

/-- Modelled from the spec: the name format rule, one or more
lowercase-alphanumeric segments joined by single hyphens, no
leading, trailing or double hyphens. -/
def nameFormatValid (s : String) : Bool :=
  nameFormatAux s.toList false

/-- Modelled from the spec: the `name` field validator — error when length
exceeds 40, error when the format pattern is not matched, warning when the
value differs from the directory name, and an info success outcome when no
violation was recorded. -/
def validate_name (value dirName : String) : List CheckOutcome :=
  let lenOuts := if value.length > 40 then [errOutcome "name exceeds 40 characters"] else []
  let fmtOuts := if nameFormatValid value then [] else [errOutcome "name has invalid format"]
  let matchOuts := if value ≠ dirName then [warnOutcome "name does not match directory name"] else []
  let outs := lenOuts ++ fmtOuts ++ matchOuts
  if outs.isEmpty then [infoOutcome "name is valid"] else outs

/-- Modelled from the spec: the first-person voice check on a description —
a leading-capital pronoun token at the start or bounded by spaces
mid-string. -/
def descriptionVoiceMarker (s : String) : Bool :=
  strStartsWith s "I " || strStartsWith s "We " || strStartsWith s "You " ||
    containsSub " I " s || containsSub " We " s || containsSub " You " s

/-- The fixed set of usage-trigger substrings. -/
def triggerPhrases : List String := ["use when", "use for", "when", "for"]

/-- Whether some trigger phrase appears case-insensitively in the text. -/
def hasTriggerPhrase (s : String) : Bool :=
  triggerPhrases.any (fun p => containsSub p (lowerS s))

/-- Modelled from the spec: the `description` field validator — error over
1024 characters, warning under 20, warning for first-person voice, warning
when no trigger phrase appears, and an info outcome summarizing the
validated length. -/
def validate_description (value : String) : List CheckOutcome :=
  let lenErr := if value.length > 1024 then [errOutcome "description exceeds 1024 characters"] else []
  let lenWarn := if value.length < 20 then [warnOutcome "description is shorter than 20 characters"] else []
  let voice := if descriptionVoiceMarker value then [warnOutcome "description uses first-person voice"] else []
  let trigger := if hasTriggerPhrase value then [] else [warnOutcome "description states no usage trigger"]
  lenErr ++ lenWarn ++ voice ++ trigger ++ [infoOutcome "description length validated"]

/-- The single error outcome produced when the metadata block fails to
parse as a top-level mapping. -/
def schemaParseOutcome : CheckOutcome :=
  errOutcome "metadata block does not parse as a mapping"

/-- Modelled from the spec: `parse_and_check` — a parse failure yields one
error outcome and no metadata, skipping the field validators; a parsed
mapping is checked against the allow-list and the mandatory fields and
then dispatched to the field validators, with a final info outcome. -/
def parse_and_check (metaText dirName : String) :
    Option (List (String × String)) × List CheckOutcome :=
  match parseMapping metaText with
  | none => (none, [schemaParseOutcome])
  | some fields =>
    let unknownOuts := fields.filterMap fun kv =>
      if allowedFields.contains kv.1 then none
      else some (errOutcome ("disallowed field " ++ kv.1))
    let missingOuts := mandatoryFields.filterMap fun k =>
      if (fields.lookup k).isSome then none
      else some (errOutcome ("missing mandatory field " ++ k))
    let nameOuts := match fields.lookup "name" with
      | some v => validate_name v dirName
      | none => []
    let descOuts := match fields.lookup "description" with
      | some v => validate_description v
      | none => []
    (some fields,
      unknownOuts ++ missingOuts ++ nameOuts ++ descOuts ++
        [infoOutcome "metadata schema validated"])

/-! ## Body Validator -/

/-- Whether the target of a reference begins with a URL scheme: one or
more letters followed by the literal `://`. -/
def schemeAux : List Char → Bool → Bool
  | ':' :: '/' :: '/' :: _, seen => seen
  | c :: rest, _ => if c.isAlpha then schemeAux rest true else false
  | [], _ => false

/-- Whether the string begins with a URL scheme. -/
def startsWithScheme (s : String) : Bool :=
  schemeAux s.toList false

/-- State of the single-pass scanner for the reference pattern
`[label](target.md)`: outside any candidate, inside the label, just past
the closing bracket, or inside the target. -/
inductive ScanState where
  | scan
  | label (acc : List Char)
  | closed
  | target (acc : List Char)
deriving DecidableEq, Repr

/-- One transition of the reference scanner on one character, yielding the
next state and the matched target, if this character completed a match
whose target carries the `.md` suffix. -/
def refStep (st : ScanState) (c : Char) : ScanState × Option String :=
  match st with
  | ScanState.scan =>
    if c = '[' then (ScanState.label [], none) else (ScanState.scan, none)
  | ScanState.label acc =>
    if c = ']' then
      if acc.isEmpty then (ScanState.scan, none) else (ScanState.closed, none)
    else (ScanState.label (acc ++ [c]), none)
  | ScanState.closed =>
    if c = '(' then (ScanState.target [], none)
    else if c = '[' then (ScanState.label [], none)
    else (ScanState.scan, none)
  | ScanState.target acc =>
    if c = ')' then
      let t := String.mk acc
      if strEndsWith t ".md" then (ScanState.scan, some t) else (ScanState.scan, none)
    else (ScanState.target (acc ++ [c]), none)

/-- All matched reference targets, in source order, with every occurrence
kept. -/
def refScan (st : ScanState) : List Char → List String
  | [] => []
  | c :: rest =>
    match refStep st c with
    | (st2, some t) => t :: refScan st2 rest
    | (st2, none) => refScan st2 rest

/-- All reference targets found in a body text, first match to last. -/
def scanRefs (body : String) : List String :=
  refScan ScanState.scan body.toList

/-- The warning emitted for one occurrence of a broken reference. -/
def brokenRefWarning (t : String) : CheckOutcome :=
  warnOutcome ("broken reference " ++ t)

/-- The outcome, if any, that one matched reference target contributes:
nothing for URL-scheme targets, nothing when the resolved file exists, and
a warning otherwise. -/
def refOutcome (pkg : Package) (t : String) : Option CheckOutcome :=
  if startsWithScheme t then none
  else if pkg.files.contains t then none
  else some (brokenRefWarning t)

/-- Modelled from the spec: the reference-resolution check as implemented,
a single pass over the body emitting a warning at each matched reference
whose non-URL target does not resolve to an existing file. -/
def refScanOutcomes (pkg : Package) (st : ScanState) : List Char → List CheckOutcome
  | [] => []
  | c :: rest =>
    match refStep st c with
    | (st2, some t) =>
      match refOutcome pkg t with
      | some o => o :: refScanOutcomes pkg st2 rest
      | none => refScanOutcomes pkg st2 rest
    | (st2, none) => refScanOutcomes pkg st2 rest

/-- Number of lines of a body text. -/
def bodyLineCount (body : String) : Nat :=
  (splitLines body).length

/-- Modelled from the spec: the Body Validator — error and stop on an
empty body; otherwise warnings for over 500 lines, unresolved placeholder
markers, and a missing heading, then the reference-resolution warnings,
then an info outcome reporting the line count. -/
def validate_body (body : String) (pkg : Package) : List CheckOutcome :=
  if trimS body = "" then [errOutcome "body is empty"]
  else
    (if bodyLineCount body > 500 then [warnOutcome "body exceeds 500 lines"] else []) ++
    (if containsSub "[TODO" body || containsSub "TODO:" body then
       [warnOutcome "body contains an unresolved placeholder marker"] else []) ++
    (if (splitLines body).any (fun l => strStartsWith l "# ") then []
     else [warnOutcome "body has no heading"]) ++
    refScanOutcomes pkg ScanState.scan body.toList ++
    [infoOutcome "body validated"]

/-! ## Structural Validator -/

/-- Conventional auxiliary documentation, VCS and cache names that are
flagged inside a package root. -/
def forbiddenNames : List String :=
  [".DS_Store", ".git", "__pycache__", "Thumbs.db"]

/-- The three conventionally-named subdirectories. -/
def conventionalSubdirs : List String :=
  ["scripts", "references", "assets"]

/-- Modelled from the spec: the Structural Validator — a warning for every
forbidden entry name in the root and an error for every conventional
subdirectory name held by a non-directory entry (root existence is handled
by the hard gate before this runs). -/
def validate_structure (pkg : Package) : List CheckOutcome :=
  (pkg.entries.filterMap fun e =>
    if forbiddenNames.contains e.name then
      some (warnOutcome ("forbidden file " ++ e.name)) else none) ++
  (conventionalSubdirs.filterMap fun d =>
    match pkg.entries.find? (fun e => e.name == d) with
    | some e => if e.isDir then none else some (errOutcome (d ++ " is not a directory"))
    | none => none)

/-! ## Auxiliary-Asset Validators -/

/-- A body with every heading line removed. -/
def stripHeadings (s : String) : String :=
  joinLines ((splitLines s).filter (fun l => ¬ strStartsWith l "#"))

/-- Modelled from the spec: the scripts-directory validator — per file, a
warning without an interpreter-marker first line, a warning without a
documentation comment block in the first 500 characters, and an error or
info outcome from the black-box parse attempt. -/
def validate_scripts (pkg : Package) : List CheckOutcome :=
  pkg.scriptsFiles.flatMap fun f =>
    (if strStartsWith f.content "#!" then []
     else [warnOutcome (f.name ++ " has no interpreter line")]) ++
    (if containsSub "\"\"\"" (String.mk (f.content.toList.take 500)) then []
     else [warnOutcome (f.name ++ " has no documentation comment")]) ++
    (if f.parses then [infoOutcome (f.name ++ " parses")]
     else [errOutcome (f.name ++ " fails to parse")])

/-- Modelled from the spec: the references-directory validator — per
document, a warning for thin content and a warning for headings-only
content. -/
def validate_references_dir (pkg : Package) : List CheckOutcome :=
  pkg.referencesFiles.flatMap fun f =>
    (if (trimS f.content).length < 50 then
       [warnOutcome (f.name ++ " is thin")] else []) ++
    (if (trimS (stripHeadings f.content)).length < 50 then
       [warnOutcome (f.name ++ " is headings-only")] else [])

/-- All auxiliary-asset outcomes. -/
def validate_aux (pkg : Package) : List CheckOutcome :=
  validate_scripts pkg ++ validate_references_dir pkg

/-! ## Orchestrator -/

/-- The fatal outcome for a missing or non-directory root. -/
def rootMissingOutcome : CheckOutcome :=
  errOutcome "package root does not exist or is not a directory"

/-- The fatal outcome for an absent manifest file. -/
def missingManifestOutcome : CheckOutcome :=
  errOutcome "manifest file is missing"

/-- The distinct fatal outcome when the manifest exists only under a case
variant of the expected name. -/
def miscasedManifestOutcome : CheckOutcome :=
  errOutcome "manifest filename has wrong case"

/-- The fatal outcome for malformed metadata-block delimiters. -/
def malformedDelimiterOutcome : CheckOutcome :=
  errOutcome "manifest delimiters are malformed"

/-- Modelled from the spec: the Orchestrator — the structural gate aborts
with exactly the triggering outcome; past the gate, the metadata, body,
structural and auxiliary validators all run and their outcomes are
aggregated into one report. -/
def validate (pkg : Package) : ValidationReport :=
  if ¬ pkg.rootExists ∨ ¬ pkg.rootIsDir then mkReport [rootMissingOutcome]
  else if ¬ pkg.manifestPresent then
    mkReport [if pkg.manifestMiscased then miscasedManifestOutcome else missingManifestOutcome]
  else
    match read_manifest pkg.manifestContent with
    | none => mkReport [malformedDelimiterOutcome]
    | some (metaText, body) =>
      let meta := parse_and_check metaText pkg.directory_name
      mkReport (meta.2 ++ validate_body body pkg ++
                validate_structure pkg ++ validate_aux pkg)

/-- Modelled from the spec: strict-mode validation as a pure
post-processing step over the default run's outcome list. -/
def validateStrict (pkg : Package) : ValidationReport :=
  mkReportStrict (validate pkg).outcomes

/-- Modelled from the spec: the human-readable rendering, grouped into
passed checks, warnings and errors, followed by a one-line summary. -/
def renderReport (r : ValidationReport) : String :=
  let block := fun (title : String) (os : List CheckOutcome) =>
    title ++ "\n" ++ String.intercalate "\n" (os.map (fun o => "  " ++ o.message))
  let passed := r.outcomes.filter (fun o => o.passed)
  let warns := r.outcomes.filter (fun o => o.severity = Severity.warning)
  let errs := r.outcomes.filter (fun o => o.severity = Severity.error)
  let summary :=
    if r.error_count = 0 ∧ r.warning_count = 0 then "all checks passed"
    else toString r.error_count ++ " errors, " ++ toString r.warning_count ++ " warnings"
  block "PASSED" passed ++ "\n" ++ block "WARNINGS" warns ++ "\n" ++
    block "ERRORS" errs ++ "\n" ++ summary

/-- A concrete empty package whose root exists but whose manifest is
absent, used to exercise the theorems on closed inputs. -/
def samplePackage : Package where
  rootExists := true
  rootIsDir := true
  directory_name := "my-skill"
  manifestPresent := false
  manifestMiscased := false
  manifestContent := ""
  entries := []
  files := []
  scriptsFiles := []
  referencesFiles := []

/-- A concrete package whose manifest parses structurally but whose
metadata block is a bare scalar, not a mapping. -/
def scalarMetaPackage : Package :=
  { samplePackage with
      manifestPresent := true
      manifestContent := "---\njust a scalar\n---\nbody text" }

/-! ## Helper lemmas -/

theorem countErrors_append (a b : List CheckOutcome) :
    countErrors (a ++ b) = countErrors a + countErrors b := by
  unfold countErrors
  exact List.countP_append _ _ _

theorem countErrors_eq_zero_of_warnings (ws : List CheckOutcome)
    (h : ∀ o ∈ ws, o.severity = Severity.warning) : countErrors ws = 0 := by
  unfold countErrors
  rw [List.countP_eq_zero]
  intro o ho
  simp [h o ho]

theorem mkReport_outcomes (os : List CheckOutcome) : (mkReport os).outcomes = os := rfl

theorem mkReport_error_count (os : List CheckOutcome) :
    (mkReport os).error_count = countErrors os := rfl

theorem mkReport_pass_iff (os : List CheckOutcome) :
    (mkReport os).overall_pass = true ↔ countErrors os = 0 := by
  simp [mkReport]

theorem validate_shape (pkg : Package) : ∃ os, validate pkg = mkReport os := by
  unfold validate
  split
  · exact ⟨_, rfl⟩
  · split
    · exact ⟨_, rfl⟩
    · split
      · exact ⟨_, rfl⟩
      · exact ⟨_, rfl⟩

theorem countErrors_map_promote (os : List CheckOutcome) :
    countErrors (os.map promote) = countErrors os + countWarnings os := by
  induction os with
  | nil => rfl
  | cons o rest ih =>
    unfold countErrors countWarnings at ih ⊢
    simp only [List.map_cons, List.countP_cons, ih]
    unfold promote
    cases h : o.severity <;> simp [h] <;> omega

/-! ## Claim theorems -/

/-- C1: for every validation run, the report's `overall_pass` is true iff
`error_count = 0`, iff zero error-severity outcomes were recorded; and
appending warning-severity outcomes to a run's outcome list never changes
`overall_pass` in default mode. -/
theorem c1_overall_pass_iff_zero_errors :
    (∀ pkg : Package,
      ((validate pkg).overall_pass = true ↔ (validate pkg).error_count = 0) ∧
      ((validate pkg).overall_pass = true ↔ countErrors (validate pkg).outcomes = 0)) ∧
    (∀ os ws : List CheckOutcome, (∀ o ∈ ws, o.severity = Severity.warning) →
      (mkReport (os ++ ws)).overall_pass = (mkReport os).overall_pass) := by
  constructor
  · intro pkg
    obtain ⟨os, hos⟩ := validate_shape pkg
    rw [hos, mkReport_error_count, mkReport_outcomes]
    exact ⟨mkReport_pass_iff os, mkReport_pass_iff os⟩
  · intro os ws hw
    simp only [mkReport, countErrors_append, countErrors_eq_zero_of_warnings ws hw,
      Nat.add_zero]

/-- Witness for C1 at a concrete run: appending one warning outcome leaves
`overall_pass` unchanged. -/
theorem c1_witness :
    (mkReport ([infoOutcome "ok"] ++ [warnOutcome "w"])).overall_pass =
      (mkReport [infoOutcome "ok"]).overall_pass :=
  c1_overall_pass_iff_zero_errors.2 [infoOutcome "ok"] [warnOutcome "w"]
    (by intro o ho; simp [warnOutcome] at ho ⊢; simp [ho])

/-- C4: a run with zero error outcomes and at least one warning outcome
passes in default mode and fails in strict mode; strict mode is pure
post-processing of the same outcome list, so it never changes which
outcomes the checks produced. -/
theorem c4_strict_mode (os : List CheckOutcome)
    (h1 : countErrors os = 0) (h2 : 0 < countWarnings os) :
    (mkReport os).overall_pass = true ∧
    (mkReportStrict os).overall_pass = false ∧
    (∀ pkg : Package, (validateStrict pkg).outcomes = ((validate pkg).outcomes).map promote) := by
  refine ⟨(mkReport_pass_iff os).mpr h1, ?_, fun pkg => rfl⟩
  unfold mkReportStrict
  simp only [mkReport, countErrors_map_promote, h1, Nat.zero_add]
  rw [decide_eq_false_iff_not]
  omega

/-- Witness for C4 at a concrete run holding one warning and no error. -/
theorem c4_witness :
    (mkReport [warnOutcome "w"]).overall_pass = true ∧
    (mkReportStrict [warnOutcome "w"]).overall_pass = false := by
  have h := c4_strict_mode [warnOutcome "w"] (by decide) (by decide)
  exact ⟨h.1, h.2.1⟩

/-- C7: the report, and its rendered text, are a deterministic function of
the package contents alone — two runs on an unchanged package produce
identical reports and byte-identical rendered output. -/
theorem c7_deterministic (p q : Package) (h : p = q) :
    validate p = validate q ∧
    renderReport (validate p) = renderReport (validate q) := by
  subst h
  exact ⟨rfl, rfl⟩

/-- Witness for C7 at a concrete package. -/
theorem c7_witness :
    renderReport (validate samplePackage) = renderReport (validate samplePackage) :=
  (c7_deterministic samplePackage samplePackage rfl).2

/-- C8: `create_file` leaves an existing file's contents unchanged, creates
a missing file with exactly the given content, and never touches any other
path. -/
theorem c8_create_file (fs : FS) (path content : String) :
    (∀ c, fs.lookup path = some c → (create_file fs path content).lookup path = some c) ∧
    (fs.lookup path = none → (create_file fs path content).lookup path = some content) ∧
    (∀ q, q ≠ path → (create_file fs path content).lookup q = fs.lookup q) := by
  unfold create_file
  by_cases h : (fs.lookup path).isSome = true
  · simp only [if_pos h]
    refine ⟨fun c hc => hc, fun hn => ?_, fun q _ => trivial⟩
    rw [hn] at h
    simp at h
  · simp only [if_neg h]
    refine ⟨fun c hc => ?_, fun _ => ?_, fun q hq => ?_⟩
    · rw [hc] at h
      simp at h
    · simp [List.lookup]
    · have hqp : (q == path) = false := beq_eq_false_iff_ne.mpr hq
      simp [List.lookup, hqp]

/-- Witness for C8 at concrete paths: creating over an existing file keeps
its contents, creating at a fresh path stores the new content, and a
sibling path is untouched. -/
theorem c8_witness :
    (create_file [("a", "old")] "a" "new").lookup "a" = some "old" ∧
    (create_file [("a", "old")] "b" "new").lookup "b" = some "new" ∧
    (create_file [("a", "old")] "b" "new").lookup "a" = some "old" :=
  ⟨(c8_create_file [("a", "old")] "a" "new").1 "old" (by rfl),
   (c8_create_file [("a", "old")] "b" "new").2.1 (by rfl),
   (c8_create_file [("a", "old")] "b" "new").2.2 "a" (by decide)⟩

/-- C9: `calculate_progress` always lands in the closed interval
`[0, 100]`, and returns exactly `100` whenever `target ≤ start`, so the
division by `target - start` is reached only when `target > start`. -/
theorem c9_calculate_progress (current start target : ℚ) :
    0 ≤ calculate_progress current start target ∧
    calculate_progress current start target ≤ 100 ∧
    (target ≤ start → calculate_progress current start target = 100) := by
  unfold calculate_progress
  by_cases h : target ≤ start
  · simp [h]
  · simp only [h, if_false]
    refine ⟨?_, ?_, fun hc => hc.elim⟩
    · exact le_min (by norm_num) (le_max_left 0 _)
    · exact min_le_left 100 _

/-- Witness for C9 at concrete inputs, reaching both branches. -/
theorem c9_witness :
    calculate_progress 50 0 100 ≤ 100 ∧ calculate_progress 7 5 5 = 100 :=
  ⟨(c9_calculate_progress 50 0 100).2.1,
   (c9_calculate_progress 7 5 5).2.2 (by norm_num)⟩

theorem findTimestamp_eq_none_iff (cs : List Char) :
    findTimestamp cs = none ↔ hasTimestampPattern cs = false := by
  induction cs with
  | nil => simp [findTimestamp, hasTimestampPattern]
  | cons c rest ih =>
    unfold findTimestamp hasTimestampPattern
    cases h : matchTimestampAt (c :: rest) <;> simp [h, ih]

/-- C10: a filename containing no substring of the form `@`, four digits,
an underscore, six digits makes `extract_timestamp_from_filename` return
`none` — and conversely, the result is `none` only in that case. -/
theorem c10_no_pattern_no_timestamp (filename : String) :
    extract_timestamp_from_filename filename = none ↔
      hasTimestampPattern filename.toList = false := by
  unfold extract_timestamp_from_filename
  cases h : findTimestamp filename.toList with
  | none =>
    simp only [h]
    exact iff_of_true trivial ((findTimestamp_eq_none_iff filename.toList).mp h)
  | some m =>
    simp only [h]
    constructor
    · intro hx
      exact absurd hx (by simp)
    · intro hx
      have := (findTimestamp_eq_none_iff filename.toList).mpr hx
      rw [h] at this
      exact absurd this (by simp)

/-- Witness for C10 at a concrete pattern-free filename. -/
theorem c10_witness :
    extract_timestamp_from_filename "coverage_report_final.md" = none :=
  (c10_no_pattern_no_timestamp "coverage_report_final.md").mpr (by decide)

theorem refScanOutcomes_eq_filterMap (pkg : Package) (cs : List Char) : ∀ st : ScanState,
    refScanOutcomes pkg st cs = (refScan st cs).filterMap (refOutcome pkg) := by
  induction cs with
  | nil => intro st; rfl
  | cons c rest ih =>
    intro st
    unfold refScanOutcomes refScan
    cases hstep : refStep st c with
    | mk st2 out =>
      cases out with
      | none => simpa using ih st2
      | some t =>
        cases ho : refOutcome pkg t <;>
          simp [List.filterMap_cons, ho, ih st2]

/-- C6: the reference-resolution pass of the body validator emits, in
source order and without deduplication, exactly one outcome per scanned
reference target that is broken — a non-URL target yields a warning
precisely when it does not resolve to an existing package file, and no
outcome when it does. -/
theorem c6_reference_outcomes (pkg : Package) (body : String) :
    refScanOutcomes pkg ScanState.scan body.toList =
      (scanRefs body).filterMap (refOutcome pkg) ∧
    (∀ t : String, startsWithScheme t = false → t ∉ pkg.files →
      refOutcome pkg t = some (brokenRefWarning t)) ∧
    (∀ t : String, startsWithScheme t = false → t ∈ pkg.files →
      refOutcome pkg t = none) := by
  refine ⟨refScanOutcomes_eq_filterMap pkg body.toList ScanState.scan, ?_, ?_⟩
  · intro t h1 h2
    unfold refOutcome
    rw [if_neg (by simp [h1]), if_neg (by simp [h2])]
  · intro t h1 h2
    unfold refOutcome
    rw [if_neg (by simp [h1]), if_pos (by simp [h2])]

/-- Witness for C6: a body with one broken reference, one URL reference
and one resolvable reference, with the broken reference repeated. -/
theorem c6_witness :
    refScanOutcomes scalarMetaPackage ScanState.scan
        "[a](x.md) [b](http://u.md) [a](x.md)".toList =
      (scanRefs "[a](x.md) [b](http://u.md) [a](x.md)").filterMap
        (refOutcome scalarMetaPackage) ∧
    refOutcome scalarMetaPackage "x.md" = some (brokenRefWarning "x.md") :=
  ⟨(c6_reference_outcomes scalarMetaPackage "[a](x.md) [b](http://u.md) [a](x.md)").1,
   (c6_reference_outcomes scalarMetaPackage "[a](x.md) [b](http://u.md) [a](x.md)").2.1
     "x.md" (by decide) (by decide)⟩

/-- C2: when the package root is missing or not a directory, or the
manifest file is absent, the validator aborts at the structural gate — the
report holds exactly one outcome, that outcome fails with error severity,
and `overall_pass` is false. -/
theorem c2_structural_gate (pkg : Package)
    (h : pkg.rootExists = false ∨ pkg.rootIsDir = false ∨ pkg.manifestPresent = false) :
    (validate pkg).outcomes.length = 1 ∧
    (∀ o ∈ (validate pkg).outcomes, o.passed = false ∧ o.severity = Severity.error) ∧
    (validate pkg).overall_pass = false := by
  unfold validate
  rcases h with h | h | h
  · rw [if_pos (Or.inl (by simp [h]))]
    decide
  · rw [if_pos (Or.inr (by simp [h]))]
    decide
  · cases hre : pkg.rootExists
    · rw [if_pos (Or.inl (by simp [hre]))]
      decide
    · cases hrd : pkg.rootIsDir
      · rw [if_pos (Or.inr (by simp [hrd]))]
        decide
      · rw [if_neg (by simp [hre, hrd]), if_pos (by simp [h])]
        cases hmc : pkg.manifestMiscased <;> decide

/-- Witness for C2 at a concrete package with an absent manifest. -/
theorem c2_witness :
    (validate samplePackage).outcomes.length = 1 ∧
    (validate samplePackage).overall_pass = false := by
  have h := c2_structural_gate samplePackage (Or.inr (Or.inr rfl))
  exact ⟨h.1, h.2.2⟩

/-- C3: when the metadata block fails to parse as a top-level mapping,
`parse_and_check` returns no metadata together with exactly one
error-severity outcome (the field validators are skipped), while the body,
structural and auxiliary validators still run and contribute their
outcomes to the same report. -/
theorem c3_metadata_parse_failure (pkg : Package) (metaText body : String)
    (hroot : pkg.rootExists = true) (hdir : pkg.rootIsDir = true)
    (hman : pkg.manifestPresent = true)
    (hread : read_manifest pkg.manifestContent = some (metaText, body))
    (hparse : parseMapping metaText = none) :
    parse_and_check metaText pkg.directory_name = (none, [schemaParseOutcome]) ∧
    countErrors [schemaParseOutcome] = 1 ∧
    (validate pkg).outcomes =
      [schemaParseOutcome] ++ validate_body body pkg ++
        validate_structure pkg ++ validate_aux pkg := by
  have hpc : parse_and_check metaText pkg.directory_name = (none, [schemaParseOutcome]) := by
    unfold parse_and_check
    rw [hparse]
  refine ⟨hpc, by decide, ?_⟩
  unfold validate
  rw [if_neg (by simp [hroot, hdir]), if_neg (by simp [hman]), hread]
  simp only [hpc, mkReport_outcomes]

/-- Witness for C3 at a concrete package whose metadata block is a bare
scalar. -/
theorem c3_witness :
    parse_and_check "just a scalar" scalarMetaPackage.directory_name =
      (none, [schemaParseOutcome]) ∧
    (validate scalarMetaPackage).outcomes =
      [schemaParseOutcome] ++ validate_body "body text" scalarMetaPackage ++
        validate_structure scalarMetaPackage ++ validate_aux scalarMetaPackage := by
  have h := c3_metadata_parse_failure scalarMetaPackage "just a scalar" "body text"
    rfl rfl rfl (by decide) (by decide)
  exact ⟨h.1, h.2.2⟩

/-- C5: the name validator records an error-severity outcome exactly when
the value breaks the format pattern or exceeds 40 characters; a value that
merely differs from the package directory name produces only the mismatch
warning, never an error. -/
theorem c5_name_validator (v d : String) :
    (0 < countErrors (validate_name v d) ↔
      (40 < v.length ∨ nameFormatValid v = false)) ∧
    (nameFormatValid v = true → v.length ≤ 40 → v ≠ d →
      validate_name v d = [warnOutcome "name does not match directory name"]) := by
  constructor
  · unfold validate_name
    split_ifs <;>
      simp_all [countErrors, errOutcome, warnOutcome, infoOutcome]
  · intro hfmt hlen hne
    unfold validate_name
    rw [if_neg (by omega : ¬ v.length > 40), if_pos hfmt, if_pos hne]
    rfl

/-- Witness for C5: the spec example `My_Skill` fails the format check
with an error, and a well-formed name differing from the directory name
yields only the mismatch warning. -/
theorem c5_witness :
    0 < countErrors (validate_name "My_Skill" "my-skill") ∧
    validate_name "my-stuff" "my-skill" =
      [warnOutcome "name does not match directory name"] :=
  ⟨(c5_name_validator "My_Skill" "my-skill").1.mpr (Or.inr (by decide)),
   (c5_name_validator "my-stuff" "my-skill").2 (by decide) (by decide) (by decide)⟩

end TestReporter
